import Mathlib

/-!
Verification development for the shared to-do list application
(services/AuthService.js, services/TodoService.js, services/FirebaseService.js
and the application shell).

The JavaScript services are shallowly embedded as pure Lean functions.
Mutable instance fields (`this.currentUser`, `this.userPermissions`,
`this.todos`, `this.unsubscribe`) become explicit state records threaded
through each operation; `async` backend calls become parameters carrying the
backend outcome (`Except`), and the backend writes an operation issues are
returned as its result value.  JavaScript number arithmetic is idealised as
exact rational arithmetic.
-/

namespace TodoListApp

/-- The sentinel produced by `firebaseService.getServerTimestamp()`
(`serverTimestamp()`): an opaque token resolved by the backend, never
inspected by client code. -/
inductive TimestampToken
  | server
deriving DecidableEq, Repr

/-- Firebase identity record, as consumed by the services: `uid`, `email`,
and a possibly-missing `displayName`. -/
structure User where
  uid : String
  email : String
  displayName : Option String
deriving DecidableEq, Repr

/-- JavaScript `a || b` for an optional string `a`: both `null` and the empty
string are falsy and fall through to `b`. -/
def jsStringOr (a : Option String) (b : String) : String :=
  match a with
  | some s => if s = "" then b else s
  | none => b

/-- JavaScript `String.prototype.trim()`: removes leading and trailing
whitespace.  Implemented structurally over the character list so concrete
instances evaluate. -/
def jsTrim (s : String) : String :=
  String.mk
    (((s.data.dropWhile Char.isWhitespace).reverse.dropWhile
        Char.isWhitespace).reverse)

/-- The cached permission record held in `AuthService.this.userPermissions`.
The only field any code path reads from it is `status`
(`this.userPermissions?.status`). -/
structure CachedPermission where
  status : String
deriving DecidableEq, Repr

/-- AuthService mutable state: `this.currentUser` and
`this.userPermissions`. -/
structure AuthState where
  currentUser : Option User
  userPermissions : Option CachedPermission
deriving DecidableEq, Repr

/-- `this.ADMIN_EMAIL` from AuthService. -/
def ADMIN_EMAIL : String := "plaza.stephen@gmail.com"

/-- `AuthService.isAdmin()`:
`this.currentUser?.email === this.ADMIN_EMAIL`. -/
def isAdmin (s : AuthState) : Bool :=
  match s.currentUser with
  | some u => u.email == ADMIN_EMAIL
  | none => false

/-- `AuthService.isAuthenticated()`: `!!this.currentUser`. -/
def isAuthenticated (s : AuthState) : Bool :=
  s.currentUser.isSome

/-- `AuthService.isApproved()`:
`this.isAdmin() || this.userPermissions?.status === approved`. -/
def isApproved (s : AuthState) : Bool :=
  isAdmin s ||
    (match s.userPermissions with
     | some p => p.status == "approved"
     | none => false)

/-- `AuthService.getUserStatus()`: `unauthenticated` when signed out,
`admin` for the admin address, else `this.userPermissions?.status || new`
(an empty status string is falsy in JavaScript and also yields `new`). -/
def getUserStatus (s : AuthState) : String :=
  match s.currentUser with
  | none => "unauthenticated"
  | some _ =>
    if isAdmin s then "admin"
    else
      match s.userPermissions with
      | some p => if p.status = "" then "new" else p.status
      | none => "new"

/-- `this.currentUser.email`, read only on paths guarded by `isAdmin`. -/
def currentUserEmail (s : AuthState) : String :=
  match s.currentUser with
  | some u => u.email
  | none => ""

/-- A document of the `userPermissions` collection as stored in the backend
(one permission record per user, keyed by `uid`). -/
structure PermRecordDoc where
  id : String
  uid : String
  email : String
  status : String
  createdAt : TimestampToken
  updatedAt : TimestampToken
deriving DecidableEq, Repr

/-- `AuthService.checkUserPermissions()`: queries the `userPermissions`
collection for the uid of the current user (outcome passed in as `lookup`);
caches the first returned record, or `null` when the result is empty, when
no user is signed in, or when the query fails (the `catch` branch). -/
def checkUserPermissions (s : AuthState)
    (lookup : Except String (List PermRecordDoc)) : AuthState :=
  match s.currentUser with
  | none => { s with userPermissions := none }
  | some _ =>
    match lookup with
    | Except.ok perms =>
      match perms with
      | p :: _ => { s with userPermissions := some { status := p.status } }
      | [] => { s with userPermissions := none }
    | Except.error _ => { s with userPermissions := none }

/-- The `createdBy` object embedded in each todo document. -/
structure CreatedBy where
  uid : String
  displayName : String
  email : String
deriving DecidableEq, Repr

/-- A document of the `todos` collection as delivered by the live feed. -/
structure TodoDoc where
  id : String
  text : String
  completed : Bool
  imageUrl : Option String
  createdBy : CreatedBy
deriving DecidableEq, Repr

/-- Combined local caches: AuthService state plus `TodoService.this.todos`. -/
structure AppState where
  auth : AuthState
  todos : List TodoDoc
deriving DecidableEq, Repr

/-- The payload `TodoService.addTodo` passes to
`firebaseService.addDocument(todos, ...)`. -/
structure TodoData where
  text : String
  completed : Bool
  imageUrl : Option String
  createdAt : TimestampToken
  createdBy : CreatedBy
deriving DecidableEq, Repr

/-- `TodoService.addTodo(text, file)`.  `file = none` means no attachment;
`file = some outcome` means an attachment was supplied and
`firebaseService.uploadFile` resolved (`Except.ok url`, the download URL) or
rejected (`Except.error e`, caught and rethrown with the `Failed to add todo`
message, so no `addDocument` call follows).  The `ok` result is the payload
of the single issued `addDocument` write; local caches are returned
unchanged, matching the source, which assigns neither `this.todos` nor any
auth field. -/
def addTodo (s : AppState) (text : String)
    (file : Option (Except String String)) :
    Except String TodoData × AppState :=
  match s.auth.currentUser with
  | none => (Except.error "You need approval to add todos", s)
  | some user =>
    if !(isApproved s.auth) then
      (Except.error "You need approval to add todos", s)
    else if jsTrim text = "" then
      (Except.error "Todo text cannot be empty", s)
    else
      match file with
      | none =>
        (Except.ok
          { text := jsTrim text, completed := false, imageUrl := none,
            createdAt := TimestampToken.server,
            createdBy :=
              { uid := user.uid,
                displayName := jsStringOr user.displayName user.email,
                email := user.email } }, s)
      | some (Except.ok url) =>
        (Except.ok
          { text := jsTrim text, completed := false, imageUrl := some url,
            createdAt := TimestampToken.server,
            createdBy :=
              { uid := user.uid,
                displayName := jsStringOr user.displayName user.email,
                email := user.email } }, s)
      | some (Except.error e) =>
        (Except.error ("Failed to add todo: " ++ e), s)

/-- `TodoService.toggleTodo(todoId, currentStatus)`: after the capability
gate, issues `updateDocument(todos, todoId, { completed: !currentStatus })`;
the `ok` value is that issued write `(todoId, !currentStatus)`. -/
def toggleTodo (s : AppState) (todoId : String) (currentStatus : Bool) :
    Except String (String × Bool) × AppState :=
  if !(isApproved s.auth) then
    (Except.error "You need approval to modify todos", s)
  else
    (Except.ok (todoId, !currentStatus), s)

/-- `TodoService.deleteTodo(todoId, createdBy)`: requires a signed-in user;
admin may delete anything, others only their own; the `ok` value is the id
of the issued `deleteDocument(todos, todoId)` call. -/
def deleteTodo (s : AppState) (todoId : String) (createdBy : CreatedBy) :
    Except String String × AppState :=
  match s.auth.currentUser with
  | none => (Except.error "Please sign in to delete todos", s)
  | some user =>
    if !(isAdmin s.auth) && createdBy.uid != user.uid then
      (Except.error "You can only delete your own todos", s)
    else
      (Except.ok todoId, s)

/-- `TodoService.clearCompletedTodos()`: computes the caller-visible
completed subset of the cached list (admin: all completed items; others:
own completed items) and fans out one delete per item; the `ok` value is
the list of issued delete ids. -/
def clearCompletedTodos (s : AppState) : Except String (List String) × AppState :=
  match s.auth.currentUser with
  | none => (Except.error "You need approval to clear todos", s)
  | some user =>
    if !(isApproved s.auth) then
      (Except.error "You need approval to clear todos", s)
    else
      let completedTodos :=
        if isAdmin s.auth then
          s.todos.filter (fun todo => todo.completed)
        else
          s.todos.filter (fun todo =>
            todo.completed && todo.createdBy.uid == user.uid)
      (Except.ok (completedTodos.map (fun todo => todo.id)), s)

/-- `TodoService.clearAllTodos()`: computes the caller-visible subset
(admin: everything; others: own items); returns silently when it is empty;
otherwise asks for confirmation (`confirmed` models the `confirm()` dialog
answer) and on yes fans out one delete per item. -/
def clearAllTodos (s : AppState) (confirmed : Bool) :
    Except String (List String) × AppState :=
  match s.auth.currentUser with
  | none => (Except.error "You need approval to clear todos", s)
  | some user =>
    if !(isApproved s.auth) then
      (Except.error "You need approval to clear todos", s)
    else
      let userTodos :=
        if isAdmin s.auth then s.todos
        else s.todos.filter (fun todo => todo.createdBy.uid == user.uid)
      if userTodos.length = 0 then (Except.ok [], s)
      else if confirmed then
        (Except.ok (userTodos.map (fun todo => todo.id)), s)
      else (Except.ok [], s)

/-- `TodoService.canModifyTodo(todo)`: `authService.isApproved()`. -/
def canModifyTodo (s : AppState) (_todo : TodoDoc) : Bool :=
  isApproved s.auth

/-- `TodoService.canDeleteTodo(todo)`:
`user && (authService.isAdmin() || todo.createdBy.uid === user.uid)`. -/
def canDeleteTodo (s : AppState) (todo : TodoDoc) : Bool :=
  match s.auth.currentUser with
  | none => false
  | some user => isAdmin s.auth || todo.createdBy.uid == user.uid

/-- The statistics object returned by `TodoService.getStatistics()`. -/
structure Statistics where
  total : Nat
  completed : Nat
  pending : Nat
  completionRate : Int
deriving DecidableEq, Repr

/-- JavaScript `Math.round` on the (non-negative) values arising here:
round half up, `⌊x + 1/2⌋`. -/
def mathRound (x : ℚ) : ℤ :=
  ⌊x + 1 / 2⌋

/-- `TodoService.getStatistics()`: a pure function of the cached item list;
`completionRate = Math.round((completed / total) * 100)` for a non-empty
list and `0` otherwise. -/
def getStatistics (todos : List TodoDoc) : Statistics :=
  let total := todos.length
  let completed := (todos.filter (fun todo => todo.completed)).length
  let pending := total - completed
  { total := total, completed := completed, pending := pending,
    completionRate :=
      if total > 0 then mathRound (((completed : ℚ) / total) * 100) else 0 }

/-- A document of the `accessRequests` collection. -/
structure AccessRequestDoc where
  id : String
  uid : String
  email : String
  displayName : String
  reason : String
  status : String
  requestedAt : TimestampToken
  reviewedAt : Option TimestampToken
  reviewedBy : Option String
deriving DecidableEq, Repr

/-- Backend document store for the two permission-workflow collections. -/
structure Store where
  accessRequests : List AccessRequestDoc
  userPermissions : List PermRecordDoc
deriving DecidableEq, Repr

/-- `firebaseService.updateDocument` semantics on a collection: updating an
absent document id fails (Firestore `updateDoc` rejects with
`No document to update`); otherwise the matching document is replaced by
`f` applied to it. -/
def updateWhereId {α : Type} (docs : List α) (idOf : α → String)
    (docId : String) (f : α → α) : Except String (List α) :=
  if docs.any (fun d => idOf d == docId) then
    Except.ok (docs.map (fun d => if idOf d == docId then f d else d))
  else
    Except.error "No document to update"

/-- `AuthService.approveRequest(requestId, uid)`: admin-only; updates the
access request to `approved` (stamping reviewer data), then queries the
`userPermissions` collection for `uid` and, when a record exists, updates
the first match to `approved`.  Returns the resulting store; local caches
are returned unchanged, matching the source, which assigns no instance
field here. -/
def approveRequest (s : AppState) (store : Store)
    (requestId : String) (uid : String) : Except String Store × AppState :=
  if !(isAdmin s.auth) then
    (Except.error "Only admin can approve requests", s)
  else
    match updateWhereId store.accessRequests (fun r => r.id) requestId
        (fun r =>
          { r with status := "approved",
                   reviewedAt := some TimestampToken.server,
                   reviewedBy := some (currentUserEmail s.auth) }) with
    | Except.error e => (Except.error ("Failed to approve request: " ++ e), s)
    | Except.ok reqs2 =>
      match store.userPermissions.filter (fun p => p.uid == uid) with
      | [] => (Except.ok { store with accessRequests := reqs2 }, s)
      | p :: _ =>
        match updateWhereId store.userPermissions (fun q => q.id) p.id
            (fun q =>
              { q with status := "approved",
                       updatedAt := TimestampToken.server }) with
        | Except.error e =>
          (Except.error ("Failed to approve request: " ++ e), s)
        | Except.ok perms2 =>
          (Except.ok { accessRequests := reqs2, userPermissions := perms2 }, s)

/-- `AuthService.denyRequest(requestId, uid)`: identical shape to
`approveRequest` with target status `denied`. -/
def denyRequest (s : AppState) (store : Store)
    (requestId : String) (uid : String) : Except String Store × AppState :=
  if !(isAdmin s.auth) then
    (Except.error "Only admin can deny requests", s)
  else
    match updateWhereId store.accessRequests (fun r => r.id) requestId
        (fun r =>
          { r with status := "denied",
                   reviewedAt := some TimestampToken.server,
                   reviewedBy := some (currentUserEmail s.auth) }) with
    | Except.error e => (Except.error ("Failed to deny request: " ++ e), s)
    | Except.ok reqs2 =>
      match store.userPermissions.filter (fun p => p.uid == uid) with
      | [] => (Except.ok { store with accessRequests := reqs2 }, s)
      | p :: _ =>
        match updateWhereId store.userPermissions (fun q => q.id) p.id
            (fun q =>
              { q with status := "denied",
                       updatedAt := TimestampToken.server }) with
        | Except.error e =>
          (Except.error ("Failed to deny request: " ++ e), s)
        | Except.ok perms2 =>
          (Except.ok { accessRequests := reqs2, userPermissions := perms2 }, s)

/-- The payload of the `addDocument(accessRequests, ...)` write issued by
`submitAccessRequest`. -/
structure AccessRequestData where
  uid : String
  email : String
  displayName : String
  reason : String
  status : String
  requestedAt : TimestampToken
  reviewedAt : Option TimestampToken
  reviewedBy : Option String
deriving DecidableEq, Repr

/-- The payload of the `addDocument(userPermissions, ...)` write issued by
`submitAccessRequest`. -/
structure PermissionData where
  uid : String
  email : String
  status : String
  createdAt : TimestampToken
  updatedAt : TimestampToken
deriving DecidableEq, Repr

/-- `AuthService.submitAccessRequest(reason)`: requires a signed-in user and
a non-empty trimmed reason; issues two `addDocument` writes (access request,
permission record, both `pending`) whose combined outcome is the `backend`
parameter; on success the source then executes
`this.userPermissions = { status: pending }`, a direct local-cache
assignment, reflected in the returned state. -/
def submitAccessRequest (s : AppState) (reason : String)
    (backend : Except String Unit) :
    Except String (AccessRequestData × PermissionData) × AppState :=
  match s.auth.currentUser with
  | none =>
    (Except.error "User must be authenticated and reason must be provided", s)
  | some user =>
    if jsTrim reason = "" then
      (Except.error "User must be authenticated and reason must be provided", s)
    else
      match backend with
      | Except.error e =>
        (Except.error ("Failed to submit access request: " ++ e), s)
      | Except.ok _ =>
        (Except.ok
          ({ uid := user.uid, email := user.email,
             displayName := jsStringOr user.displayName user.email,
             reason := jsTrim reason, status := "pending",
             requestedAt := TimestampToken.server,
             reviewedAt := none, reviewedBy := none },
           { uid := user.uid, email := user.email, status := "pending",
             createdAt := TimestampToken.server,
             updatedAt := TimestampToken.server }),
         { s with auth :=
            { s.auth with userPermissions := some { status := "pending" } } })

/-- The gateway-side view of live snapshot listeners:
`firebaseService.onDocumentsSnapshot` hands out fresh handles and keeps
every registered listener in `active` until its unsubscribe handle is
invoked. -/
structure FeedSystem where
  nextHandle : Nat
  active : List Nat
deriving DecidableEq, Repr

/-- TodoService mutable state relevant to the live feed: the cached item
list (`this.todos`) and the stored unsubscribe handle
(`this.unsubscribe`). -/
structure TodoServiceState where
  todos : List TodoDoc
  unsubscribeHandle : Option Nat
deriving DecidableEq, Repr

/-- `firebaseService.onDocumentsSnapshot(...)`: registers one more live
listener and returns its unsubscribe handle. -/
def onDocumentsSnapshot (fs : FeedSystem) : Nat × FeedSystem :=
  (fs.nextHandle,
   { nextHandle := fs.nextHandle + 1, active := fs.nextHandle :: fs.active })

/-- `TodoService.setupTodoListener()`:
`this.unsubscribe = firebaseService.onDocumentsSnapshot(todos, ...)`.
The new handle overwrites `this.unsubscribe`; the previously stored handle,
if any, is not invoked. -/
def setupTodoListener (ts : TodoServiceState) (fs : FeedSystem) :
    TodoServiceState × FeedSystem :=
  let r := onDocumentsSnapshot fs
  ({ ts with unsubscribeHandle := some r.1 }, r.2)

/-- `TodoService.initialize()`: throws unless FirebaseService is
initialized, then runs `setupTodoListener`. -/
def initTodoService (firebaseReady : Bool) (ts : TodoServiceState)
    (fs : FeedSystem) : Except String (TodoServiceState × FeedSystem) :=
  if !firebaseReady then
    Except.error "FirebaseService must be initialized first"
  else
    Except.ok (setupTodoListener ts fs)

/-- `TodoService.destroy()`: invokes the stored unsubscribe handle when
present, clears it, and empties the cached item list. -/
def destroyTodoService (ts : TodoServiceState) (fs : FeedSystem) :
    TodoServiceState × FeedSystem :=
  match ts.unsubscribeHandle with
  | some h =>
    ({ todos := [], unsubscribeHandle := none },
     { fs with active := fs.active.erase h })
  | none =>
    ({ todos := [], unsubscribeHandle := none }, fs)

/-- Effect of the write issued by `toggleTodo` on the backend `todos`
collection: `updateDocument(todos, docId, { completed: v })` sets the
`completed` field of the matching document. -/
def applyCompletedUpdate (todos : List TodoDoc) (docId : String) (v : Bool) :
    List TodoDoc :=
  todos.map (fun t => if t.id == docId then { t with completed := v } else t)

/-- The stored `completed` value of the document with the given id, if
present. -/
def lookupCompleted (todos : List TodoDoc) (docId : String) : Option Bool :=
  (todos.find? (fun t => t.id == docId)).map (fun t => t.completed)

/-- Synchronisation predicate for claim statements: in `store`, the access
request with the given id and the permission record with the given uid both
carry status `st`. -/
def decisionSynced (store : Store) (requestId : String) (uid : String)
    (st : String) : Prop :=
  (∃ r ∈ store.accessRequests, r.id = requestId ∧ r.status = st)
  ∧ (∀ r ∈ store.accessRequests, r.id = requestId → r.status = st)
  ∧ (∃ p ∈ store.userPermissions, p.uid = uid ∧ p.status = st)
  ∧ (∀ p ∈ store.userPermissions, p.uid = uid → p.status = st)

/-! ### Concrete fixtures used by witnesses -/

/-- The admin identity (email equal to `ADMIN_EMAIL`). -/
def adminUser : User :=
  { uid := "admin1", email := ADMIN_EMAIL, displayName := some "Admin" }

/-- A non-admin identity. -/
def aliceUser : User :=
  { uid := "alice1", email := "alice@example.com", displayName := some "Alice" }

/-- Signed-in admin, no cached permission record. -/
def adminAuth : AuthState :=
  { currentUser := some adminUser, userPermissions := none }

/-- Signed-in non-admin with no cached permission record (a new user). -/
def aliceAuthNoPerms : AuthState :=
  { currentUser := some aliceUser, userPermissions := none }

/-- Signed-in non-admin with a cached `pending` permission record. -/
def alicePendingAuth : AuthState :=
  { currentUser := some aliceUser, userPermissions := some { status := "pending" } }

/-- Signed-in non-admin with a cached `approved` permission record. -/
def aliceApprovedAuth : AuthState :=
  { currentUser := some aliceUser, userPermissions := some { status := "approved" } }

/-- A todo item created by the non-admin user. -/
def todoByAlice : TodoDoc :=
  { id := "t1", text := "Buy milk", completed := false, imageUrl := none,
    createdBy :=
      { uid := "alice1", displayName := "Alice", email := "alice@example.com" } }

/-- App state: admin signed in, empty cache. -/
def appAdmin : AppState := { auth := adminAuth, todos := [] }

/-- App state: pending non-admin signed in, empty cache. -/
def appAlicePending : AppState := { auth := alicePendingAuth, todos := [] }

/-- App state: approved non-admin signed in, empty cache. -/
def appAliceApproved : AppState := { auth := aliceApprovedAuth, todos := [] }

/-! ### Helper lemmas -/

/-- Membership in a conditionally-updated list: every element either is the
image under `f` of an element satisfying `c`, or is an untouched element not
satisfying `c`. -/
lemma mem_map_cond {α : Type} (l : List α) (c : α → Bool) (f : α → α) (r : α)
    (hr : r ∈ l.map (fun a => if c a then f a else a)) :
    (∃ a, a ∈ l ∧ c a = true ∧ r = f a) ∨ (r ∈ l ∧ c r = false) := by
  obtain ⟨a, ha, hEq⟩ := List.mem_map.mp hr
  by_cases h : c a
  · exact Or.inl ⟨a, ha, h, by rw [← hEq, if_pos h]⟩
  · refine Or.inr ⟨?_, ?_⟩
    · rw [← hEq, if_neg h]; exact ha
    · rw [← hEq, if_neg h]; simpa using h


/-- A successful `updateWhereId` call implies the document id was present
and the result is the conditional map. -/
lemma updateWhereId_ok {α : Type} (docs : List α) (idOf : α → String)
    (docId : String) (f : α → α) (out : List α)
    (h : updateWhereId docs idOf docId f = Except.ok out) :
    docs.any (fun d => idOf d == docId) = true
    ∧ out = docs.map (fun d => if idOf d == docId then f d else d) := by
  unfold updateWhereId at h
  by_cases hany : docs.any (fun d => idOf d == docId)
  · rw [if_pos hany] at h
    exact ⟨hany, (Except.ok.inj h).symm⟩
  · rw [if_neg hany] at h
    exact absurd h (by simp)

/-- Applying a completed-field update to a document that is present makes a
subsequent read of that document return the written value. -/
lemma lookupCompleted_applyCompletedUpdate (todos : List TodoDoc)
    (docId : String) (v : Bool) (h : (lookupCompleted todos docId).isSome) :
    lookupCompleted (applyCompletedUpdate todos docId v) docId = some v := by
  induction todos with
  | nil => simp [lookupCompleted] at h
  | cons t ts ih =>
    simp only [applyCompletedUpdate, List.map_cons]
    by_cases ht : (t.id == docId) = true
    · rw [if_pos ht]
      simp only [lookupCompleted, List.find?]
      simp [ht]
    · rw [if_neg ht]
      have ht2 : (t.id == docId) = false := by simpa using ht
      simp only [lookupCompleted, List.find?] at h ⊢
      simp only [ht2, cond_false, Bool.false_eq_true, if_false] at h ⊢
      exact ih h

/-- The `Failed to add todo` message never collides with the capability
message, whatever the backend error text. -/
lemma failed_add_ne (e : String) :
    ("Failed to add todo: " ++ e) ≠ "You need approval to add todos" := by
  intro h
  have h2 := congrArg String.data h
  simp at h2

/-! ### Claim theorems -/

/-- C1: for every signed-in user u and item i,
`canDeleteTodo(u, i) = isAdmin(u) OR i.createdBy.uid = u.uid`; `deleteTodo`
raises an error exactly when the caller is neither the admin nor the item
creator (including when no user is signed in), and otherwise the delete
request for the item id is issued. -/
theorem c1_delete_capability (s : AppState) (i : TodoDoc) (todoId : String) :
    (∀ u : User, s.auth.currentUser = some u →
      canDeleteTodo s i = (isAdmin s.auth || i.createdBy.uid == u.uid)
      ∧ ((deleteTodo s todoId i.createdBy).1 = Except.ok todoId ↔
          (isAdmin s.auth = true ∨ i.createdBy.uid = u.uid))
      ∧ ((∃ msg, (deleteTodo s todoId i.createdBy).1 = Except.error msg) ↔
          ¬(isAdmin s.auth = true ∨ i.createdBy.uid = u.uid)))
    ∧ (s.auth.currentUser = none →
      canDeleteTodo s i = false
      ∧ (deleteTodo s todoId i.createdBy).1 =
          Except.error "Please sign in to delete todos") := by
  constructor
  · intro u hu
    refine ⟨by simp [canDeleteTodo, hu], ?_, ?_⟩
    · by_cases hA : isAdmin s.auth
      · simp [deleteTodo, hu, hA]
      · by_cases hU : i.createdBy.uid = u.uid
        · simp [deleteTodo, hu, hA, hU]
        · simp [deleteTodo, hu, hA, hU]
    · by_cases hA : isAdmin s.auth
      · simp [deleteTodo, hu, hA]
      · by_cases hU : i.createdBy.uid = u.uid
        · simp [deleteTodo, hu, hA, hU]
        · simp [deleteTodo, hu, hA, hU]
  · intro hu
    exact ⟨by simp [canDeleteTodo, hu], by simp [deleteTodo, hu]⟩

/-- C1 witness: the admin may delete an item created by another user. -/
theorem c1_delete_capability_witness :
    canDeleteTodo appAdmin todoByAlice = true :=
  (((c1_delete_capability appAdmin todoByAlice "t1").1 adminUser rfl).1).trans
    (by decide)

/-- C8: `getStatistics` on a cached set with `T` total and `C` completed
items returns `total = T`, `completed = C`, `pending = T - C`, and
`completionRate = round(100 * C / T)` for `T > 0`, else `0`. -/
theorem c8_statistics (todos : List TodoDoc) :
    getStatistics todos =
      { total := todos.length,
        completed := (todos.filter (fun t => t.completed)).length,
        pending :=
          todos.length - (todos.filter (fun t => t.completed)).length,
        completionRate :=
          if todos.length > 0 then
            mathRound
              ((100 * ((todos.filter (fun t => t.completed)).length : ℚ)) /
                todos.length)
          else 0 } := by
  have hrate : (((todos.filter (fun t => t.completed)).length : ℚ) /
        todos.length) * 100
      = (100 * ((todos.filter (fun t => t.completed)).length : ℚ)) /
        todos.length := by
    ring
  simp only [getStatistics, hrate]

/-- C9: `deleteTodo` does not require the approved tier: a signed-in
non-admin whose permission status is pending, denied or absent can delete
an item they created (the delete request is issued with no capability
error), even though `addTodo` and `toggleTodo` reject that same user. -/
theorem c9_delete_without_approval (s : AppState) (u : User)
    (hu : s.auth.currentUser = some u) (hadmin : u.email ≠ ADMIN_EMAIL)
    (hperm : ∀ p, s.auth.userPermissions = some p → p.status ≠ "approved")
    (todo : TodoDoc) (hown : todo.createdBy.uid = u.uid) :
    (deleteTodo s todo.id todo.createdBy).1 = Except.ok todo.id
    ∧ canDeleteTodo s todo = true
    ∧ (∀ text file,
        (addTodo s text file).1 =
          Except.error "You need approval to add todos")
    ∧ (∀ todoId cur,
        (toggleTodo s todoId cur).1 =
          Except.error "You need approval to modify todos") := by
  have hA : isAdmin s.auth = false := by
    simp [isAdmin, hu, hadmin]
  have happ : isApproved s.auth = false := by
    unfold isApproved
    rw [hA]
    cases hp : s.auth.userPermissions with
    | none => rfl
    | some p => simp [hperm p hp]
  refine ⟨?_, ?_, ?_, ?_⟩
  · simp [deleteTodo, hu, hown]
  · simp [canDeleteTodo, hu, hown]
  · intro text file
    simp [addTodo, hu, happ]
  · intro todoId cur
    simp [toggleTodo, happ]

/-- C9 witness: the pending user deletes their own item while add and
toggle reject them. -/
theorem c9_delete_without_approval_witness :
    (deleteTodo appAlicePending todoByAlice.id todoByAlice.createdBy).1 =
      Except.ok todoByAlice.id :=
  (c9_delete_without_approval appAlicePending aliceUser rfl (by decide)
    (by intro p hp; cases Option.some.inj hp; decide) todoByAlice rfl).1

/-- C10: `toggleTodo(id, currentStatus)` writes `completed = !currentStatus`
from the caller-supplied argument, independent of the stored value; two
successive toggles each passing the value observed after the previous write
restore the original value, while a toggle passing a stale value overwrites
the stored value with the negation of the stale one. -/
theorem c10_toggle_last_write_wins (s : AppState)
    (happ : isApproved s.auth = true) (store : List TodoDoc) (docId : String)
    (c : Bool) (hc : lookupCompleted store docId = some c)
    (cur stale : Bool) :
    (toggleTodo s docId cur).1 = Except.ok (docId, !cur)
    ∧ lookupCompleted
        (applyCompletedUpdate (applyCompletedUpdate store docId (!c))
          docId (!(!c))) docId = some c
    ∧ lookupCompleted (applyCompletedUpdate store docId (!stale)) docId
        = some (!stale) := by
  refine ⟨by simp [toggleTodo, happ], ?_, ?_⟩
  · have h1 : lookupCompleted (applyCompletedUpdate store docId (!c)) docId
        = some (!c) :=
      lookupCompleted_applyCompletedUpdate store docId (!c) (by simp [hc])
    have h2 :=
      lookupCompleted_applyCompletedUpdate
        (applyCompletedUpdate store docId (!c)) docId (!(!c))
        (by simp [h1])
    simpa using h2
  · exact lookupCompleted_applyCompletedUpdate store docId (!stale)
      (by simp [hc])

/-- C10 witness: concrete double toggle restores `false`; a stale toggle
forces the negation of the stale value. -/
theorem c10_toggle_last_write_wins_witness :
    (toggleTodo appAliceApproved "t1" false).1 = Except.ok ("t1", true)
    ∧ lookupCompleted
        (applyCompletedUpdate (applyCompletedUpdate [todoByAlice] "t1" true)
          "t1" false) "t1" = some false
    ∧ lookupCompleted (applyCompletedUpdate [todoByAlice] "t1" false) "t1"
        = some false :=
  c10_toggle_last_write_wins appAliceApproved (by decide) [todoByAlice]
    "t1" false (by decide) false true

/-- C5: the code_bug evidence.  The spec requires that re-establishing the
item feed first tears the previous subscription down, so that two live
feeds are never active.  `setupTodoListener` overwrites `this.unsubscribe`
without invoking it, so a second `TodoService.initialize()` (the
`TodoApp.refresh()` path) leaves both snapshot listeners active:
from a fresh state, after two initializations the gateway holds two active
subscriptions and the first handle (0) was never released. -/
theorem c5_duplicate_feed_on_reinit :
    initTodoService true { todos := [], unsubscribeHandle := none }
        { nextHandle := 0, active := [] }
      = Except.ok ({ todos := [], unsubscribeHandle := some 0 },
                   { nextHandle := 1, active := [0] })
    ∧ initTodoService true { todos := [], unsubscribeHandle := some 0 }
        { nextHandle := 1, active := [0] }
      = Except.ok ({ todos := [], unsubscribeHandle := some 1 },
                   { nextHandle := 2, active := [1, 0] })
    ∧ ([1, 0] : List Nat).length = 2 := by
  exact ⟨rfl, rfl, rfl⟩

/-- C4 counterexample: `submitAccessRequest` applies an optimistic local
update.  On success the cached permission record changes from `none` to
`{ status := pending }` by the operation itself, not via any
subscription callback, refuting the claim that no mutation touches the
local caches. -/
theorem c4_optimistic_update_counterexample :
    (submitAccessRequest { auth := aliceAuthNoPerms, todos := [] }
        "need this for work" (Except.ok ())).2.auth.userPermissions
      ≠ aliceAuthNoPerms.userPermissions := by
  decide

/-- C4 amended: no todo mutation and no admin decision touches the local
caches, and `submitAccessRequest` never touches the cached item list and
never touches the identity; but on success `submitAccessRequest` directly
sets the cached permission record to `{ status: pending }` (on failure it
leaves all state unchanged). -/
theorem c4_no_optimistic_updates_except_submit :
    (∀ s text file, (addTodo s text file).2 = s)
    ∧ (∀ s todoId cur, (toggleTodo s todoId cur).2 = s)
    ∧ (∀ s todoId cb, (deleteTodo s todoId cb).2 = s)
    ∧ (∀ s, (clearCompletedTodos s).2 = s)
    ∧ (∀ s conf, (clearAllTodos s conf).2 = s)
    ∧ (∀ s store requestId uid, (approveRequest s store requestId uid).2 = s)
    ∧ (∀ s store requestId uid, (denyRequest s store requestId uid).2 = s)
    ∧ (∀ s reason backend,
        (submitAccessRequest s reason backend).2.todos = s.todos
        ∧ (submitAccessRequest s reason backend).2.auth.currentUser
            = s.auth.currentUser
        ∧ (∀ eff, (submitAccessRequest s reason backend).1 = Except.ok eff →
            (submitAccessRequest s reason backend).2.auth.userPermissions
              = some { status := "pending" })
        ∧ (∀ msg,
            (submitAccessRequest s reason backend).1 = Except.error msg →
            (submitAccessRequest s reason backend).2 = s)) := by
  refine ⟨?_, ?_, ?_, ?_, ?_, ?_, ?_, ?_⟩
  · intro s text file
    unfold addTodo
    repeat' split
    all_goals rfl
  · intro s todoId cur
    unfold toggleTodo
    repeat' split
    all_goals rfl
  · intro s todoId cb
    unfold deleteTodo
    repeat' split
    all_goals rfl
  · intro s
    unfold clearCompletedTodos
    repeat' split
    all_goals rfl
  · intro s conf
    dsimp only [clearAllTodos]
    repeat' split
    all_goals rfl
  · intro s store requestId uid
    unfold approveRequest
    repeat' split
    all_goals rfl
  · intro s store requestId uid
    unfold denyRequest
    repeat' split
    all_goals rfl
  · intro s reason backend
    unfold submitAccessRequest
    refine ⟨?_, ?_, ?_, ?_⟩
    · repeat' split
      all_goals rfl
    · repeat' split
      all_goals rfl
    · intro eff heff
      revert heff
      repeat' split
      all_goals intro heff
      all_goals first
        | rfl
        | exact absurd heff (by simp)
    · intro msg hmsg
      revert hmsg
      repeat' split
      all_goals intro hmsg
      all_goals first
        | rfl
        | exact absurd hmsg (by simp)

/-- C4 amended witness: adding a todo leaves the local caches unchanged. -/
theorem c4_no_optimistic_updates_witness :
    (addTodo appAliceApproved "Buy milk" none).2 = appAliceApproved :=
  c4_no_optimistic_updates_except_submit.1 appAliceApproved "Buy milk" none

/-- C2: over reachable auth states (a signed-out state has no cached
permission record, and a cached status is one of the three stored values),
`isApproved` — the gate the spec calls `canMutateItems` — holds exactly in
states `admin` and `approved`; it is false in `pending`, `denied`, `new`
and signed-out (`unauthenticated`), and `addTodo` / `toggleTodo` raise
their capability error in exactly the non-approved states. -/
theorem c2_mutation_capability (s : AuthState)
    (hinv : s.currentUser = none → s.userPermissions = none)
    (hstatus : ∀ p, s.userPermissions = some p →
      p.status = "pending" ∨ p.status = "approved" ∨ p.status = "denied") :
    (isApproved s =
      (getUserStatus s == "admin" || getUserStatus s == "approved"))
    ∧ ((getUserStatus s = "pending" ∨ getUserStatus s = "denied" ∨
        getUserStatus s = "new" ∨ getUserStatus s = "unauthenticated") →
        isApproved s = false)
    ∧ (∀ todos text file,
        ((addTodo { auth := s, todos := todos } text file).1 =
            Except.error "You need approval to add todos"
          ↔ isApproved s = false))
    ∧ (∀ todos todoId cur,
        ((toggleTodo { auth := s, todos := todos } todoId cur).1 =
            Except.error "You need approval to modify todos"
          ↔ isApproved s = false)) := by
  have key : isApproved s =
      (getUserStatus s == "admin" || getUserStatus s == "approved") := by
    cases hcu : s.currentUser with
    | none =>
      have hp := hinv hcu
      simp [isApproved, isAdmin, getUserStatus, hcu, hp]
    | some u =>
      by_cases hA : (u.email == ADMIN_EMAIL)
      · simp [isApproved, isAdmin, getUserStatus, hcu, hA]
      · cases hp : s.userPermissions with
        | none => simp [isApproved, isAdmin, getUserStatus, hcu, hA, hp]
        | some p =>
          rcases hstatus p hp with h | h | h <;>
            simp [isApproved, isAdmin, getUserStatus, hcu, hA, hp, h]
  refine ⟨key, ?_, ?_, ?_⟩
  · intro h
    rcases h with h | h | h | h <;> rw [key, h] <;> decide
  · intro todos text file
    constructor
    · intro h
      by_cases happ : isApproved s = true
      · exfalso
        cases hcu : s.currentUser with
        | none =>
          have hp := hinv hcu
          rw [isApproved, isAdmin] at happ
          simp [hcu, hp] at happ
        | some u =>
          simp only [addTodo, hcu, happ, Bool.not_true, Bool.false_eq_true,
            if_false] at h
          cases file with
          | none =>
            by_cases ht : jsTrim text = "" <;> simp [ht] at h
          | some out =>
            cases out with
            | ok url =>
              by_cases ht : jsTrim text = "" <;> simp [ht] at h
            | error e =>
              by_cases ht : jsTrim text = "" <;> simp [ht] at h
              exact failed_add_ne e h
      · simpa using happ
    · intro happ
      cases hcu : s.currentUser with
      | none => simp [addTodo, hcu]
      | some u => simp [addTodo, hcu, happ]
  · intro todos todoId cur
    by_cases happ : isApproved s = true
    · simp [toggleTodo, happ]
    · have hf : isApproved s = false := by simpa using happ
      simp [toggleTodo, hf]

/-- C2 witness: a pending user is not approved, and `addTodo` rejects them
with the capability error. -/
theorem c2_mutation_capability_witness :
    isApproved alicePendingAuth
      = (getUserStatus alicePendingAuth == "admin" ||
         getUserStatus alicePendingAuth == "approved") :=
  (c2_mutation_capability alicePendingAuth
    (fun h => Option.noConfusion h)
    (by intro p hp; cases Option.some.inj hp; left; rfl)).1

/-- C3: when the permission lookup fails with a backend error for a
signed-in non-admin user, the cached permission record becomes null and the
user is treated as new-like: `getUserStatus` is `new`, `isApproved` and the
mutation gate `canModifyTodo` are false (fail closed). -/
theorem c3_lookup_failure_fails_closed (s : AuthState) (u : User)
    (hu : s.currentUser = some u) (hadmin : u.email ≠ ADMIN_EMAIL)
    (e : String) :
    (checkUserPermissions s (Except.error e)).userPermissions = none
    ∧ getUserStatus (checkUserPermissions s (Except.error e)) = "new"
    ∧ isApproved (checkUserPermissions s (Except.error e)) = false
    ∧ (∀ todos todo,
        canModifyTodo
          { auth := checkUserPermissions s (Except.error e), todos := todos }
          todo = false) := by
  have hs : checkUserPermissions s (Except.error e)
      = { currentUser := some u, userPermissions := none } := by
    simp [checkUserPermissions, hu]
  have hA : isAdmin { currentUser := some u, userPermissions := none }
      = false := by
    simp [isAdmin, hadmin]
  refine ⟨by simp [hs], ?_, ?_, ?_⟩
  · rw [hs]
    simp [getUserStatus, hu, hA]
  · rw [hs]
    simp [isApproved, hA]
  · intro todos todo
    simp [canModifyTodo, hs, isApproved, hA]

/-- C3 witness: even a previously-approved cache is dropped on lookup
failure and the user is no longer approved. -/
theorem c3_lookup_failure_witness :
    isApproved (checkUserPermissions aliceApprovedAuth
      (Except.error "backend offline")) = false :=
  (c3_lookup_failure_fails_closed aliceApprovedAuth aliceUser rfl
    (by decide) "backend offline").2.2.1

/-- C7: with an image supplied, the upload outcome is awaited before the
item write: on upload success the issued item payload embeds exactly the
returned reference; on upload failure the operation raises an error and no
item write is issued (the error result carries no payload), and local state
is unchanged. -/
theorem c7_upload_precedes_item_write (s : AppState) (u : User)
    (hu : s.auth.currentUser = some u) (happ : isApproved s.auth = true)
    (text : String) (htext : jsTrim text ≠ "") :
    (∀ url, (addTodo s text (some (Except.ok url))).1 =
        Except.ok
          { text := jsTrim text, completed := false, imageUrl := some url,
            createdAt := TimestampToken.server,
            createdBy :=
              { uid := u.uid,
                displayName := jsStringOr u.displayName u.email,
                email := u.email } })
    ∧ (∀ e, (addTodo s text (some (Except.error e))).1 =
        Except.error ("Failed to add todo: " ++ e))
    ∧ (∀ file, (addTodo s text file).2 = s) := by
  refine ⟨?_, ?_, ?_⟩
  · intro url
    simp [addTodo, hu, happ, htext]
  · intro e
    simp [addTodo, hu, happ, htext]
  · intro file
    rcases file with _ | (_ | _) <;> simp [addTodo, hu, happ, htext]

/-- C7 witness: concrete successful upload embeds the download URL in the
issued payload. -/
theorem c7_upload_precedes_item_write_witness :
    (addTodo appAliceApproved "Buy milk"
        (some (Except.ok "https://storage/x.png"))).1
      = Except.ok
          { text := jsTrim "Buy milk", completed := false,
            imageUrl := some "https://storage/x.png",
            createdAt := TimestampToken.server,
            createdBy :=
              { uid := aliceUser.uid,
                displayName := jsStringOr aliceUser.displayName aliceUser.email,
                email := aliceUser.email } } :=
  (c7_upload_precedes_item_write appAliceApproved aliceUser rfl (by decide)
    "Buy milk" (by decide)).1 "https://storage/x.png"

/-- After a conditional status update of the targeted access request and of
the (unique) permission record for the target uid, both records carry the
decision status. -/
lemma decision_pipeline_synced (store : Store)
    (requestId : String) (uid : String) (st : String)
    (fr : AccessRequestDoc → AccessRequestDoc)
    (fp : PermRecordDoc → PermRecordDoc)
    (hfr_st : ∀ r, (fr r).status = st) (hfr_id : ∀ r, (fr r).id = r.id)
    (hfp_st : ∀ p, (fp p).status = st) (hfp_uid : ∀ p, (fp p).uid = p.uid)
    (huniq : ∀ p ∈ store.userPermissions, ∀ q ∈ store.userPermissions,
      p.uid = uid → q.uid = uid → p = q)
    (p0 : PermRecordDoc) (rest : List PermRecordDoc)
    (hflt : store.userPermissions.filter (fun p => p.uid == uid) = p0 :: rest)
    (hany : store.accessRequests.any (fun d => d.id == requestId) = true)
    (reqs2 : List AccessRequestDoc) (perms2 : List PermRecordDoc)
    (hreqs2 : reqs2 = store.accessRequests.map
      (fun r => if r.id == requestId then fr r else r))
    (hperms2 : perms2 = store.userPermissions.map
      (fun q => if q.id == p0.id then fp q else q)) :
    decisionSynced { accessRequests := reqs2, userPermissions := perms2 }
      requestId uid st := by
  subst hreqs2
  subst hperms2
  have hp0flt : p0 ∈ store.userPermissions.filter (fun p => p.uid == uid) := by
    rw [hflt]
    exact List.mem_cons_self _ _
  have hp0mem : p0 ∈ store.userPermissions := (List.mem_filter.mp hp0flt).1
  have hp0uid : p0.uid = uid := by
    have h2 := (List.mem_filter.mp hp0flt).2
    simpa using h2
  refine ⟨?_, ?_, ?_, ?_⟩
  · obtain ⟨r0, hr0mem, hr0id⟩ := List.any_eq_true.mp hany
    have hr0id2 : r0.id = requestId := by simpa using hr0id
    refine ⟨fr r0, ?_, ?_, ?_⟩
    · have hmap := List.mem_map_of_mem
        (fun r => if r.id == requestId then fr r else r) hr0mem
      simpa [hr0id2] using hmap
    · rw [hfr_id]
      exact hr0id2
    · exact hfr_st r0
  · intro r hr hid
    rcases mem_map_cond store.accessRequests
        (fun r => r.id == requestId) fr r hr with
      ⟨a, _, _, hEq⟩ | ⟨_, hcr⟩
    · rw [hEq]
      exact hfr_st a
    · exact absurd hid (by simpa using hcr)
  · refine ⟨fp p0, ?_, ?_, ?_⟩
    · have hmap := List.mem_map_of_mem
        (fun q => if q.id == p0.id then fp q else q) hp0mem
      simpa using hmap
    · rw [hfp_uid]
      exact hp0uid
    · exact hfp_st p0
  · intro q hq hquid
    rcases mem_map_cond store.userPermissions
        (fun q => q.id == p0.id) fp q hq with
      ⟨a, _, _, hEq⟩ | ⟨hqmem, hcq⟩
    · rw [hEq]
      exact hfp_st a
    · have hqp0 : q = p0 := huniq q hqmem p0 hp0mem hquid hp0uid
      rw [hqp0] at hcq
      simp at hcq

/-- C6: after every successfully completed `approveRequest(requestId, uid)`
or `denyRequest(requestId, uid)`, the targeted access request and the
permission record for that uid carry the same status (`approved`
respectively `denied`), for every starting store in which the permission
record for the uid exists and is unique (one record per user). -/
theorem c6_admin_decision_syncs_records (s : AppState) (store : Store)
    (requestId : String) (uid : String)
    (huniq : ∀ p ∈ store.userPermissions, ∀ q ∈ store.userPermissions,
      p.uid = uid → q.uid = uid → p = q)
    (hex : ∃ p ∈ store.userPermissions, p.uid = uid) :
    (∀ store2 s2,
      approveRequest s store requestId uid = (Except.ok store2, s2) →
      decisionSynced store2 requestId uid "approved")
    ∧ (∀ store2 s2,
      denyRequest s store requestId uid = (Except.ok store2, s2) →
      decisionSynced store2 requestId uid "denied") := by
  constructor
  · intro store2 s2 h
    unfold approveRequest at h
    by_cases hA : isAdmin s.auth
    · simp only [hA, Bool.not_true, Bool.false_eq_true, if_false] at h
      cases hupd : updateWhereId store.accessRequests (fun r => r.id)
          requestId
          (fun r =>
            { r with status := "approved",
                     reviewedAt := some TimestampToken.server,
                     reviewedBy := some (currentUserEmail s.auth) }) with
      | error e1 =>
        rw [hupd] at h
        simp at h
      | ok reqs2 =>
        rw [hupd] at h
        dsimp only at h
        cases hflt : store.userPermissions.filter (fun p => p.uid == uid) with
        | nil =>
          exfalso
          obtain ⟨p, hpmem, hpuid⟩ := hex
          have hpf : p ∈ store.userPermissions.filter
              (fun p => p.uid == uid) :=
            List.mem_filter.mpr ⟨hpmem, by simp [hpuid]⟩
          rw [hflt] at hpf
          exact absurd hpf (List.not_mem_nil p)
        | cons p0 rest =>
          rw [hflt] at h
          dsimp only at h
          cases hupd2 : updateWhereId store.userPermissions (fun q => q.id)
              p0.id
              (fun q =>
                { q with status := "approved",
                         updatedAt := TimestampToken.server }) with
          | error e2 =>
            rw [hupd2] at h
            simp at h
          | ok perms2 =>
            rw [hupd2] at h
            simp only [Prod.mk.injEq] at h
            obtain ⟨hok, _⟩ := h
            have hok2 := Except.ok.inj hok
            obtain ⟨hany1, hreqs2⟩ := updateWhereId_ok _ _ _ _ _ hupd
            obtain ⟨_, hperms2⟩ := updateWhereId_ok _ _ _ _ _ hupd2
            rw [← hok2]
            exact decision_pipeline_synced store requestId uid "approved"
              (fun r =>
                { r with status := "approved",
                         reviewedAt := some TimestampToken.server,
                         reviewedBy := some (currentUserEmail s.auth) })
              (fun q =>
                { q with status := "approved",
                         updatedAt := TimestampToken.server })
              (fun r => rfl) (fun r => rfl) (fun p => rfl) (fun p => rfl)
              huniq p0 rest hflt hany1 reqs2 perms2 hreqs2 hperms2
    · simp [hA] at h
  · intro store2 s2 h
    unfold denyRequest at h
    by_cases hA : isAdmin s.auth
    · simp only [hA, Bool.not_true, Bool.false_eq_true, if_false] at h
      cases hupd : updateWhereId store.accessRequests (fun r => r.id)
          requestId
          (fun r =>
            { r with status := "denied",
                     reviewedAt := some TimestampToken.server,
                     reviewedBy := some (currentUserEmail s.auth) }) with
      | error e1 =>
        rw [hupd] at h
        simp at h
      | ok reqs2 =>
        rw [hupd] at h
        dsimp only at h
        cases hflt : store.userPermissions.filter (fun p => p.uid == uid) with
        | nil =>
          exfalso
          obtain ⟨p, hpmem, hpuid⟩ := hex
          have hpf : p ∈ store.userPermissions.filter
              (fun p => p.uid == uid) :=
            List.mem_filter.mpr ⟨hpmem, by simp [hpuid]⟩
          rw [hflt] at hpf
          exact absurd hpf (List.not_mem_nil p)
        | cons p0 rest =>
          rw [hflt] at h
          dsimp only at h
          cases hupd2 : updateWhereId store.userPermissions (fun q => q.id)
              p0.id
              (fun q =>
                { q with status := "denied",
                         updatedAt := TimestampToken.server }) with
          | error e2 =>
            rw [hupd2] at h
            simp at h
          | ok perms2 =>
            rw [hupd2] at h
            simp only [Prod.mk.injEq] at h
            obtain ⟨hok, _⟩ := h
            have hok2 := Except.ok.inj hok
            obtain ⟨hany1, hreqs2⟩ := updateWhereId_ok _ _ _ _ _ hupd
            obtain ⟨_, hperms2⟩ := updateWhereId_ok _ _ _ _ _ hupd2
            rw [← hok2]
            exact decision_pipeline_synced store requestId uid "denied"
              (fun r =>
                { r with status := "denied",
                         reviewedAt := some TimestampToken.server,
                         reviewedBy := some (currentUserEmail s.auth) })
              (fun q =>
                { q with status := "denied",
                         updatedAt := TimestampToken.server })
              (fun r => rfl) (fun r => rfl) (fun p => rfl) (fun p => rfl)
              huniq p0 rest hflt hany1 reqs2 perms2 hreqs2 hperms2
    · simp [hA] at h

/-- A pending access request from the non-admin user. -/
def pendingRequestDoc : AccessRequestDoc :=
  { id := "r1", uid := "alice1", email := "alice@example.com",
    displayName := "Alice", reason := "need this for work",
    status := "pending", requestedAt := TimestampToken.server,
    reviewedAt := none, reviewedBy := none }

/-- The matching pending permission record. -/
def pendingPermDoc : PermRecordDoc :=
  { id := "p1", uid := "alice1", email := "alice@example.com",
    status := "pending", createdAt := TimestampToken.server,
    updatedAt := TimestampToken.server }

/-- A store holding exactly the pending request and its permission
record. -/
def demoStore : Store :=
  { accessRequests := [pendingRequestDoc],
    userPermissions := [pendingPermDoc] }

/-- C6 witness: the admin approving the pending demo request leaves both
records `approved`. -/
theorem c6_admin_decision_syncs_records_witness :
    decisionSynced
      { accessRequests :=
          [{ pendingRequestDoc with
              status := "approved",
              reviewedAt := some TimestampToken.server,
              reviewedBy := some ADMIN_EMAIL }],
        userPermissions := [{ pendingPermDoc with status := "approved" }] }
      "r1" "alice1" "approved" :=
  (c6_admin_decision_syncs_records appAdmin demoStore "r1" "alice1"
    (by decide) (by decide)).1
    { accessRequests :=
        [{ pendingRequestDoc with
            status := "approved",
            reviewedAt := some TimestampToken.server,
            reviewedBy := some ADMIN_EMAIL }],
      userPermissions := [{ pendingPermDoc with status := "approved" }] }
    appAdmin rfl

/-- C8 witness: the one-item incomplete list yields total 1, completed 0,
pending 1, rate 0. -/
theorem c8_statistics_witness :
    getStatistics [todoByAlice] =
      { total := 1, completed := 0, pending := 1, completionRate := 0 } :=
  (c8_statistics [todoByAlice]).trans (by
    norm_num [todoByAlice, mathRound])

end TodoListApp
